import Mathlib

/-!
Shallow embedding of the stocksim-backend order-execution engine and quote
cache, translated from `src/models.rs`, `src/db.rs`, `src/handlers/trading.rs`
and `src/finnhub.rs`.

Conventions of the embedding:
* Rust `i32` arithmetic is modelled on `Int`; Rust integer division `/` on
  `i32` truncates toward zero, which is `Int.tdiv`.
* The MongoDB collections of `db.rs` are modelled as lists; `find_one` is
  `List.find?` over the insertion order, `update_one` rewrites the first
  matching element, `delete_one` removes the first matching element and
  `insert_one` appends.
* The handlers in `trading.rs` start a MongoDB client session transaction,
  but none of the collection operations in `db.rs` attach that session, so
  in the Rust driver every write executes immediately outside the
  transaction.  The embedding therefore applies each write to the shared
  state at the point of the call, and `commit_transaction` /
  `abort_transaction` do not touch the data.
* Each fallible database call carries a failure flag (the `DbFails` record);
  a call whose flag is set returns the driver error, and the handler reacts
  exactly as the Rust code does (a mapped rejection for calls followed by
  `map_err`/`?`, a panic for calls followed by `.unwrap()`).
* The stock price in cents (the Rust `(price.c * 100.0) as i32`), the stock
  name, the generated transaction id and the timestamp are parameters of the
  handlers: they are produced before any ledger state is touched.
-/

namespace StockSim

/-- `models.rs`: the `Account` record (`id`, `value`, `cash`, `change`). -/
structure Account where
  id : String
  value : Int
  cash : Int
  change : Int
deriving Repr, DecidableEq

/-- The holding record as constructed and read by `trading.rs` and stored by
`db.rs` (`account_id`, `stock_symbol`, `stock_name`, `quantity`,
`purchase_price`, `total_value`, `current_price`). -/
structure Holding where
  account_id : String
  stock_symbol : String
  stock_name : String
  quantity : Int
  purchase_price : Int
  total_value : Int
  current_price : Int
deriving Repr, DecidableEq

/-- `models.rs`: the `Transaction` record. -/
structure Transaction where
  id : String
  account_id : String
  stock_symbol : String
  transaction_type : String
  quantity : Int
  price : Int
  timestamp : String
deriving Repr, DecidableEq

/-- `models.rs`: the `TradeRequest` body (`stock_symbol`, `quantity : i32`). -/
structure TradeRequest where
  stock_symbol : String
  quantity : Int
deriving Repr, DecidableEq

/-- The three MongoDB collections of `db.rs`: `accounts`, `holdings`,
`transactions`, in insertion order. -/
structure DbState where
  accounts : List Account
  holdings : List Holding
  transactions : List Transaction
deriving Repr, DecidableEq

/-- The filter `doc! \x7b "id": account_id \x7d` used by `get_account` /
`update_account`. -/
def accountKey (id : String) (a : Account) : Bool :=
  a.id == id

/-- The filter `doc! \x7b "account_id": ..., "stock_symbol": ... \x7d` used by
`get_holding`, `update_holding` and `delete_holding`. -/
def holdingKey (aid sym : String) (h : Holding) : Bool :=
  h.account_id == aid && h.stock_symbol == sym

/-- MongoDB `update_one`: rewrite the first element matching the filter,
leave everything else alone. -/
def updateFirst {α : Type} (p : α → Bool) (f : α → α) : List α → List α
  | [] => []
  | x :: xs => if p x then f x :: xs else x :: updateFirst p f xs

/-- `db.rs` `get_account`: `accounts.find_one(doc! \x7b "id": id \x7d)`. -/
def getAccount (db : DbState) (id : String) : Option Account :=
  db.accounts.find? (accountKey id)

/-- `db.rs` `update_account`: `$set \x7b value, cash \x7d` on the first account
matching the id filter. -/
def update_account (db : DbState) (id : String) (newValue newCash : Int) :
    DbState :=
  { db with
    accounts :=
      updateFirst (accountKey id)
        (fun a => { a with value := newValue, cash := newCash }) db.accounts }

/-- `db.rs` `get_holding`: `holdings.find_one` on (account id, symbol). -/
def get_holding (db : DbState) (aid sym : String) : Option Holding :=
  db.holdings.find? (holdingKey aid sym)

/-- `db.rs` `update_holding`: `$set \x7b quantity, purchase_price \x7d` on the
first holding matching (account id, symbol). -/
def update_holding (db : DbState) (aid sym : String) (q pp : Int) : DbState :=
  { db with
    holdings :=
      updateFirst (holdingKey aid sym)
        (fun h => { h with quantity := q, purchase_price := pp }) db.holdings }

/-- `db.rs` `add_holding`: `holdings.insert_one`. -/
def add_holding (db : DbState) (h : Holding) : DbState :=
  { db with holdings := db.holdings ++ [h] }

/-- `db.rs` `delete_holding`: `holdings.delete_one` removes the first
matching holding. -/
def delete_holding (db : DbState) (aid sym : String) : DbState :=
  { db with holdings := db.holdings.eraseP (holdingKey aid sym) }

/-- `db.rs` `add_transaction`: `transactions.insert_one`. -/
def add_transaction (db : DbState) (t : Transaction) : DbState :=
  { db with transactions := db.transactions ++ [t] }

/-- Rust `Holding::default()` as produced by `unwrap_or_default()` in
`buy_stock`: empty strings and zero numbers. -/
def Holding.defaultHolding : Holding :=
  ⟨"", "", "", 0, 0, 0, 0⟩

/-- Which database calls of one handler invocation fail at the driver level.
`false` everywhere is the normal, failure-free run. -/
structure DbFails where
  getAccountFails : Bool
  updateAccountFails : Bool
  getHoldingFails : Bool
  updateHoldingFails : Bool
  addHoldingFails : Bool
  deleteHoldingFails : Bool
  addTransactionFails : Bool
deriving Repr, DecidableEq

/-- A run in which every database call succeeds. -/
def DbFails.allOk : DbFails :=
  ⟨false, false, false, false, false, false, false⟩

/-- The rejection responses the trading handlers can return.
`insufficientCash` is the HTTP 400 insufficient-cash message of `buy_stock`
(line 76), `insufficientShares` is the HTTP 400 message
"You cannot sell more shares than you own." of `sell_stock` (line 246), and
`tradeError` is the HTTP 500 "Error completing trade" produced by the
`map_err` branches on failed writes. -/
inductive Rejection where
  | insufficientCash
  | insufficientShares
  | tradeError
deriving Repr, DecidableEq

/-- Outcome of one handler invocation: a committed transaction (HTTP 201), a
rejection returned to the caller, or a Rust panic from an `.unwrap()`. -/
inductive TradeOutcome where
  | committed (t : Transaction)
  | rejected (r : Rejection)
  | panicked
deriving Repr, DecidableEq

/-- `trading.rs` `buy_stock`, lines 42 to 168, entered after the price (in
cents) and the profile name have been fetched.  Returns the response and the
database state as left behind by the writes (which, as in the source, are
not attached to the session transaction). -/
def buy_stock (s : String) (trade : TradeRequest) (stock_price : Int)
    (stock_name : String) (txId timestamp : String) (F : DbFails)
    (db : DbState) : TradeOutcome × DbState :=
  let total_cost := stock_price * trade.quantity
  if F.getAccountFails then (.panicked, db) else
  match getAccount db s with
  | none => (.panicked, db)
  | some account =>
    if account.cash < total_cost then
      (.rejected .insufficientCash, db)
    else
      let account := { account with cash := account.cash - total_cost }
      if F.updateAccountFails then (.rejected .tradeError, db) else
      let db := update_account db s account.value account.cash
      if F.getHoldingFails then (.panicked, db) else
      let holding := (get_holding db s trade.stock_symbol).getD
        Holding.defaultHolding
      if holding.quantity > 0 then
        let new_quantity := holding.quantity + trade.quantity
        let new_price :=
          Int.tdiv
            (holding.purchase_price * holding.quantity
              + stock_price * trade.quantity)
            (holding.quantity + trade.quantity)
        if F.updateHoldingFails then (.rejected .tradeError, db) else
        let db := update_holding db s trade.stock_symbol new_quantity new_price
        if F.addTransactionFails then (.panicked, db) else
        let tx : Transaction :=
          ⟨txId, s, trade.stock_symbol, "BUY", trade.quantity, stock_price,
            timestamp⟩
        (.committed tx, add_transaction db tx)
      else
        if F.addHoldingFails then (.panicked, db) else
        let db := add_holding db
          ⟨s, trade.stock_symbol, stock_name, trade.quantity, stock_price,
            stock_price * trade.quantity, stock_price⟩
        if F.addTransactionFails then (.panicked, db) else
        let tx : Transaction :=
          ⟨txId, s, trade.stock_symbol, "BUY", trade.quantity, stock_price,
            timestamp⟩
        (.committed tx, add_transaction db tx)

/-- `trading.rs` `sell_stock`, lines 196 to 309, entered after the price (in
cents) has been fetched.  A missing account or a missing holding hits an
`.unwrap()` on `None` and panics; only the share-count check produces a
rejection before the writes begin. -/
def sell_stock (s : String) (trade : TradeRequest) (stock_price : Int)
    (txId timestamp : String) (F : DbFails) (db : DbState) :
    TradeOutcome × DbState :=
  let total_value := stock_price * trade.quantity
  if F.getAccountFails then (.panicked, db) else
  match getAccount db s with
  | none => (.panicked, db)
  | some account =>
    if F.getHoldingFails then (.panicked, db) else
    match get_holding db s trade.stock_symbol with
    | none => (.panicked, db)
    | some h =>
      let current_quantity := h.quantity
      if current_quantity < trade.quantity then
        (.rejected .insufficientShares, db)
      else
        let account := { account with cash := account.cash + total_value }
        if F.updateAccountFails then (.panicked, db) else
        let db := update_account db s account.value account.cash
        let new_quantity := current_quantity - trade.quantity
        if new_quantity = 0 then
          if F.deleteHoldingFails then (.panicked, db) else
          let db := delete_holding db s trade.stock_symbol
          if F.addTransactionFails then (.panicked, db) else
          let tx : Transaction :=
            ⟨txId, s, trade.stock_symbol, "SELL", trade.quantity, stock_price,
              timestamp⟩
          (.committed tx, add_transaction db tx)
        else
          if F.getHoldingFails then (.panicked, db) else
          match get_holding db s trade.stock_symbol with
          | none => (.panicked, db)
          | some holding =>
            if F.updateHoldingFails then (.panicked, db) else
            let db := update_holding db s trade.stock_symbol new_quantity
              holding.purchase_price
            if F.addTransactionFails then (.panicked, db) else
            let tx : Transaction :=
              ⟨txId, s, trade.stock_symbol, "SELL", trade.quantity,
                stock_price, timestamp⟩
            (.committed tx, add_transaction db tx)

/-- The side of a trade request routed to `/buy` or `/sell`. -/
inductive Side where
  | buy
  | sell
deriving Repr, DecidableEq

/-- One client order together with the price, profile name, transaction id
and timestamp observed during its execution. -/
structure Op where
  side : Side
  trade : TradeRequest
  price : Int
  name : String
  txId : String
  timestamp : String
deriving Repr, DecidableEq

/-- Execute one order on account `s` in a failure-free run. -/
def applyOp (s : String) (o : Op) (db : DbState) : TradeOutcome × DbState :=
  match o.side with
  | .buy => buy_stock s o.trade o.price o.name o.txId o.timestamp
      DbFails.allOk db
  | .sell => sell_stock s o.trade o.price o.txId o.timestamp DbFails.allOk db

/-- Execute a sequence of orders on account `s`, keeping whatever state each
handler leaves behind. -/
def runOps (s : String) (ops : List Op) (db : DbState) : DbState :=
  ops.foldl (fun acc o => (applyOp s o acc).2) db

/-- Total cost of all BUY rows of a transaction log, as recomputed from the
log (`price` times `quantity` per row). -/
def buyCost (ts : List Transaction) : Int :=
  ((ts.filter (fun t => t.transaction_type == "BUY")).map
    (fun t => t.price * t.quantity)).sum

/-- Total proceeds of all SELL rows of a transaction log. -/
def sellProceeds (ts : List Transaction) : Int :=
  ((ts.filter (fun t => t.transaction_type == "SELL")).map
    (fun t => t.price * t.quantity)).sum

/-- Sum over all of one account's holdings of quantity times average cost
(`purchase_price`). -/
def holdingsBookValue (db : DbState) (s : String) : Int :=
  ((db.holdings.filter (fun h => h.account_id == s)).map
    (fun h => h.quantity * h.purchase_price)).sum

/-- `finnhub.rs`: the `FinnhubQuote` response (`c` current price, `d` day
change, `dp` day change percent, `pc` previous close).  The `f64` fields are
modelled as rationals; the only operations performed on them here are the
comparison `c <= 0.0` and storage, both exact. -/
structure FinnhubQuote where
  c : Rat
  d : Rat
  dp : Rat
  pc : Rat
deriving Repr, DecidableEq

/-- `finnhub.rs`: the `FinnhubProfile` response. -/
structure FinnhubProfile where
  name : String
  logo : String
  finnhub_industry : String
deriving Repr, DecidableEq

/-- The `CACHE` map of `finnhub.rs`: symbol to (quote, fetch instant).
Instants are modelled as whole seconds (`Duration::from_secs` granularity).
The `HashMap` is modelled as an association list where `insert` replaces an
existing binding in place. -/
abbrev QuoteCache := List (String × FinnhubQuote × Nat)

/-- The `PROFILE_CACHE` map of `finnhub.rs`. -/
abbrev ProfileCache := List (String × FinnhubProfile × Nat)

/-- `HashMap::get` on a cache map. -/
def cacheGet {α : Type} (cache : List (String × α × Nat)) (sym : String) :
    Option (α × Nat) :=
  (cache.find? (fun e => e.1 == sym)).map (fun e => e.2)

/-- `HashMap::insert` on a cache map: replace the binding for the symbol if
present, otherwise add one. -/
def cacheInsert {α : Type} (cache : List (String × α × Nat)) (sym : String)
    (v : α × Nat) : List (String × α × Nat) :=
  if (cache.find? (fun e => e.1 == sym)).isSome then
    updateFirst (fun e => e.1 == sym) (fun e => (e.1, v)) cache
  else
    cache ++ [(sym, v)]

/-- The cached-entry check of `finnhub.rs`: a cached value is returned only
when an entry exists and `now.duration_since(timestamp) < ttl` (Rust
`Instant::duration_since` saturates at zero, matching the truncated `Nat`
subtraction). -/
def cacheFresh {α : Type} (cache : List (String × α × Nat)) (sym : String)
    (now ttl : Nat) : Option α :=
  match cacheGet cache sym with
  | some (v, timestamp) => if now - timestamp < ttl then some v else none
  | none => none

/-- The Rust `Result<T, String>` returned by the fetch functions. -/
inductive FetchRes (α : Type) where
  | ok (value : α)
  | error (msg : String)
deriving Repr, DecidableEq

/-- Result of one `fetch_stock_price` / `fetch_stock_profile` call: the value
or error returned, the cache map afterwards, and whether an upstream network
request was issued. -/
structure FetchResult (α : Type) (κ : Type) where
  result : FetchRes α
  cache : κ
  networkCall : Bool
deriving Repr, DecidableEq

/-- `finnhub.rs` `fetch_stock_price`: serve a cached quote younger than 300
seconds without a network call; otherwise fetch upstream (`upstream` is the
response of that request), reject a non-positive current price without
caching it, and cache a valid quote with the current instant. -/
def fetch_stock_price (sym : String) (now : Nat)
    (upstream : FetchRes FinnhubQuote) (cache : QuoteCache) :
    FetchResult FinnhubQuote QuoteCache :=
  match cacheFresh cache sym now 300 with
  | some quote => ⟨.ok quote, cache, false⟩
  | none =>
    match upstream with
    | .error e => ⟨.error e, cache, true⟩
    | .ok quote =>
      if quote.c ≤ 0 then ⟨.error "Invalid stock price returned", cache, true⟩
      else ⟨.ok quote, cacheInsert cache sym (quote, now), true⟩

/-- `finnhub.rs` `fetch_stock_profile`: serve a cached profile younger than
24 hours (86400 seconds) without a network call; otherwise fetch upstream and
cache the response (profiles have no validity check). -/
def fetch_stock_profile (sym : String) (now : Nat)
    (upstream : FetchRes FinnhubProfile) (cache : ProfileCache) :
    FetchResult FinnhubProfile ProfileCache :=
  match cacheFresh cache sym now (60 * 60 * 24) with
  | some profile => ⟨.ok profile, cache, false⟩
  | none =>
    match upstream with
    | .error e => ⟨.error e, cache, true⟩
    | .ok profile => ⟨.ok profile, cacheInsert cache sym (profile, now), true⟩

/-! Basic access lemmas about the database operations. -/

@[simp]
theorem get_holding_update_account (db : DbState) (id : String) (v c : Int)
    (aid sym : String) :
    get_holding (update_account db id v c) aid sym = get_holding db aid sym :=
  rfl

@[simp]
theorem transactions_update_account (db : DbState) (id : String) (v c : Int) :
    (update_account db id v c).transactions = db.transactions :=
  rfl

@[simp]
theorem transactions_update_holding (db : DbState) (aid sym : String)
    (q pp : Int) :
    (update_holding db aid sym q pp).transactions = db.transactions :=
  rfl

@[simp]
theorem transactions_add_holding (db : DbState) (h : Holding) :
    (add_holding db h).transactions = db.transactions :=
  rfl

@[simp]
theorem transactions_delete_holding (db : DbState) (aid sym : String) :
    (delete_holding db aid sym).transactions = db.transactions :=
  rfl

@[simp]
theorem transactions_add_transaction (db : DbState) (t : Transaction) :
    (add_transaction db t).transactions = db.transactions ++ [t] :=
  rfl

@[simp]
theorem getAccount_update_holding (db : DbState) (aid sym : String)
    (q pp : Int) (id : String) :
    getAccount (update_holding db aid sym q pp) id = getAccount db id :=
  rfl

@[simp]
theorem getAccount_add_holding (db : DbState) (h : Holding) (id : String) :
    getAccount (add_holding db h) id = getAccount db id :=
  rfl

@[simp]
theorem getAccount_delete_holding (db : DbState) (aid sym : String)
    (id : String) :
    getAccount (delete_holding db aid sym) id = getAccount db id :=
  rfl

@[simp]
theorem getAccount_add_transaction (db : DbState) (t : Transaction)
    (id : String) :
    getAccount (add_transaction db t) id = getAccount db id :=
  rfl

@[simp]
theorem get_holding_add_transaction (db : DbState) (t : Transaction)
    (aid sym : String) :
    get_holding (add_transaction db t) aid sym = get_holding db aid sym :=
  rfl

/-- `update_one` rewrites exactly the element `find_one` returns, provided
the rewrite keeps the element matching the filter. -/
theorem find?_updateFirst {α : Type} (p : α → Bool) (f : α → α) :
    ∀ (l : List α) (x : α), l.find? p = some x → p (f x) = true →
      (updateFirst p f l).find? p = some (f x) := by
  intro l
  induction l with
  | nil => intro x hx _; simp [List.find?] at hx
  | cons y ys ih =>
    intro x hx hfx
    by_cases hy : p y = true
    · rw [List.find?_cons_of_pos _ hy] at hx
      injection hx with hx
      subst hx
      simp only [updateFirst, hy, if_true]
      exact List.find?_cons_of_pos _ hfx
    · rw [List.find?_cons_of_neg _ (by simpa using hy)] at hx
      simp only [updateFirst, hy, if_false, Bool.false_eq_true]
      rw [List.find?_cons_of_neg _ (by simpa using hy)]
      exact ih x hx hfx

/-- After `delete_one` on a collection holding at most one matching row,
`find_one` no longer finds a match. -/
theorem find?_eraseP_of_countP_le_one {α : Type} (p : α → Bool) :
    ∀ l : List α, l.countP p ≤ 1 → (l.eraseP p).find? p = none := by
  intro l
  induction l with
  | nil => intro _; simp
  | cons y ys ih =>
    intro hc
    by_cases hy : p y = true
    · rw [List.eraseP_cons_of_pos hy]
      rw [List.countP_cons_of_pos _ _ hy] at hc
      have h0 : ys.countP p = 0 := by omega
      exact List.find?_eq_none.mpr (List.countP_eq_zero.mp h0)
    · rw [List.eraseP_cons_of_neg (by simpa using hy)]
      rw [List.countP_cons_of_neg _ _ (by simpa using hy)] at hc
      rw [List.find?_cons_of_neg _ (by simpa using hy)]
      exact ih hc

/-- `find_one` on a collection after `insert_one`, when the collection had no
matching row and the inserted row matches. -/
theorem find?_append_singleton {α : Type} (p : α → Bool) (l : List α) (x : α)
    (hl : l.find? p = none) (hx : p x = true) :
    (l ++ [x]).find? p = some x := by
  rw [List.find?_append, hl]
  simp [List.find?_cons_of_pos _ hx]

/-- `update_account` rewrites the account that `get_account` returns. -/
theorem getAccount_update_account (db : DbState) (id : String) (v c : Int)
    (a : Account) (ha : getAccount db id = some a) :
    getAccount (update_account db id v c) id =
      some { a with value := v, cash := c } := by
  have hkey : accountKey id a = true := List.find?_some ha
  exact find?_updateFirst (accountKey id) _ db.accounts a ha
    (by simpa [accountKey] using hkey)

/-- `update_holding` rewrites the holding that `get_holding` returns. -/
theorem get_holding_update_holding (db : DbState) (aid sym : String)
    (q pp : Int) (h : Holding) (hh : get_holding db aid sym = some h) :
    get_holding (update_holding db aid sym q pp) aid sym =
      some { h with quantity := q, purchase_price := pp } := by
  have hkey : holdingKey aid sym h = true := List.find?_some hh
  exact find?_updateFirst (holdingKey aid sym) _ db.holdings h hh
    (by simpa [holdingKey] using hkey)

/-- `delete_holding` on a state with at most one row for the key removes the
row `get_holding` was returning. -/
theorem get_holding_delete_holding (db : DbState) (aid sym : String)
    (huniq : db.holdings.countP (holdingKey aid sym) ≤ 1) :
    get_holding (delete_holding db aid sym) aid sym = none :=
  find?_eraseP_of_countP_le_one (holdingKey aid sym) db.holdings huniq

/-- `add_holding` of a row for a key with no existing row makes `get_holding`
return the new row. -/
theorem get_holding_add_holding (db : DbState) (h : Holding)
    (hnone : get_holding db h.account_id h.stock_symbol = none) :
    get_holding (add_holding db h) h.account_id h.stock_symbol = some h :=
  find?_append_singleton _ db.holdings h hnone (by simp [holdingKey])

/-! Branch characterizations of the two handlers in a failure-free run. -/

/-- `buy_stock` rejects with the insufficient-cash message, before any write,
when `account.cash < stock_price * quantity`. -/
theorem buy_stock_reject (s sym name txId ts : String) (db : DbState)
    (a : Account) (p q : Int) (ha : getAccount db s = some a)
    (hcash : a.cash < p * q) :
    buy_stock s ⟨sym, q⟩ p name txId ts DbFails.allOk db =
      (.rejected .insufficientCash, db) := by
  simp [buy_stock, DbFails.allOk, ha, hcash]

/-- `buy_stock` with sufficient cash and no holding row of positive quantity
for the symbol: commit through the insert branch. -/
theorem buy_stock_commit_insert (s sym name txId ts : String) (db : DbState)
    (a : Account) (p q : Int) (ha : getAccount db s = some a)
    (hcash : ¬ a.cash < p * q)
    (hq0 : ¬ ((get_holding db s sym).getD Holding.defaultHolding).quantity > 0) :
    buy_stock s ⟨sym, q⟩ p name txId ts DbFails.allOk db =
      (.committed ⟨txId, s, sym, "BUY", q, p, ts⟩,
        add_transaction
          (add_holding (update_account db s a.value (a.cash - p * q))
            ⟨s, sym, name, q, p, p * q, p⟩)
          ⟨txId, s, sym, "BUY", q, p, ts⟩) := by
  simp only [buy_stock, DbFails.allOk, ha, Bool.false_eq_true, if_false,
    if_neg hcash, get_holding_update_account, if_neg hq0]

/-- `buy_stock` with sufficient cash and an existing holding row of positive
quantity: commit through the weighted-average update branch. -/
theorem buy_stock_commit_merge (s sym name txId ts : String) (db : DbState)
    (a : Account) (h0 : Holding) (p q : Int) (ha : getAccount db s = some a)
    (hcash : ¬ a.cash < p * q) (hh : get_holding db s sym = some h0)
    (hq0 : h0.quantity > 0) :
    buy_stock s ⟨sym, q⟩ p name txId ts DbFails.allOk db =
      (.committed ⟨txId, s, sym, "BUY", q, p, ts⟩,
        add_transaction
          (update_holding (update_account db s a.value (a.cash - p * q)) s sym
            (h0.quantity + q)
            (Int.tdiv (h0.purchase_price * h0.quantity + p * q)
              (h0.quantity + q)))
          ⟨txId, s, sym, "BUY", q, p, ts⟩) := by
  simp only [buy_stock, DbFails.allOk, ha, Bool.false_eq_true, if_false,
    if_neg hcash, get_holding_update_account, hh, Option.getD_some, if_pos hq0]

/-- `buy_stock` panics when the account is missing. -/
theorem buy_stock_no_account (s sym name txId ts : String) (db : DbState)
    (p q : Int) (ha : getAccount db s = none) :
    buy_stock s ⟨sym, q⟩ p name txId ts DbFails.allOk db = (.panicked, db) := by
  simp [buy_stock, DbFails.allOk, ha]

/-- `sell_stock` panics when the account is missing. -/
theorem sell_stock_no_account (s sym txId ts : String) (db : DbState)
    (p q : Int) (ha : getAccount db s = none) :
    sell_stock s ⟨sym, q⟩ p txId ts DbFails.allOk db = (.panicked, db) := by
  simp [sell_stock, DbFails.allOk, ha]

/-- `sell_stock` panics (an `.unwrap()` on `None`) when no holding row exists
for the symbol. -/
theorem sell_stock_no_holding (s sym txId ts : String) (db : DbState)
    (a : Account) (p q : Int) (ha : getAccount db s = some a)
    (hh : get_holding db s sym = none) :
    sell_stock s ⟨sym, q⟩ p txId ts DbFails.allOk db = (.panicked, db) := by
  simp [sell_stock, DbFails.allOk, ha, hh]

/-- `sell_stock` rejects, before any write, when the held quantity is below
the requested quantity. -/
theorem sell_stock_reject (s sym txId ts : String) (db : DbState)
    (a : Account) (h0 : Holding) (p q : Int) (ha : getAccount db s = some a)
    (hh : get_holding db s sym = some h0) (hlt : h0.quantity < q) :
    sell_stock s ⟨sym, q⟩ p txId ts DbFails.allOk db =
      (.rejected .insufficientShares, db) := by
  simp [sell_stock, DbFails.allOk, ha, hh, hlt]

/-- `sell_stock` of the entire held quantity: commit through the delete
branch. -/
theorem sell_stock_commit_delete (s sym txId ts : String) (db : DbState)
    (a : Account) (h0 : Holding) (p q : Int) (ha : getAccount db s = some a)
    (hh : get_holding db s sym = some h0) (hge : ¬ h0.quantity < q)
    (hzero : h0.quantity - q = 0) :
    sell_stock s ⟨sym, q⟩ p txId ts DbFails.allOk db =
      (.committed ⟨txId, s, sym, "SELL", q, p, ts⟩,
        add_transaction
          (delete_holding (update_account db s a.value (a.cash + p * q)) s sym)
          ⟨txId, s, sym, "SELL", q, p, ts⟩) := by
  simp only [sell_stock, DbFails.allOk, Bool.false_eq_true, if_false, ha,
    hh, if_neg hge, if_pos hzero]

/-- `sell_stock` of part of the held quantity: commit through the update
branch, which keeps `purchase_price` unchanged. -/
theorem sell_stock_commit_update (s sym txId ts : String) (db : DbState)
    (a : Account) (h0 : Holding) (p q : Int) (ha : getAccount db s = some a)
    (hh : get_holding db s sym = some h0) (hge : ¬ h0.quantity < q)
    (hnz : ¬ h0.quantity - q = 0) :
    sell_stock s ⟨sym, q⟩ p txId ts DbFails.allOk db =
      (.committed ⟨txId, s, sym, "SELL", q, p, ts⟩,
        add_transaction
          (update_holding (update_account db s a.value (a.cash + p * q)) s sym
            (h0.quantity - q) h0.purchase_price)
          ⟨txId, s, sym, "SELL", q, p, ts⟩) := by
  simp only [sell_stock, DbFails.allOk, Bool.false_eq_true, if_false, ha,
    hh, if_neg hge, if_neg hnz, get_holding_update_account]

/-! Ledger-versus-log accounting. -/

theorem buyCost_append_buy (ts : List Transaction) (t : Transaction)
    (h : t.transaction_type = "BUY") :
    buyCost (ts ++ [t]) = buyCost ts + t.price * t.quantity := by
  simp [buyCost, List.filter_append, List.sum_append, List.filter, h]

theorem buyCost_append_sell (ts : List Transaction) (t : Transaction)
    (h : t.transaction_type = "SELL") :
    buyCost (ts ++ [t]) = buyCost ts := by
  simp [buyCost, List.filter_append, List.sum_append, List.filter, h]

theorem sellProceeds_append_buy (ts : List Transaction) (t : Transaction)
    (h : t.transaction_type = "BUY") :
    sellProceeds (ts ++ [t]) = sellProceeds ts := by
  simp [sellProceeds, List.filter_append, List.sum_append, List.filter, h]

theorem sellProceeds_append_sell (ts : List Transaction) (t : Transaction)
    (h : t.transaction_type = "SELL") :
    sellProceeds (ts ++ [t]) = sellProceeds ts + t.price * t.quantity := by
  simp [sellProceeds, List.filter_append, List.sum_append, List.filter, h]

/-- One handler invocation (committed, rejected or panicked) preserves the
difference between the account's cash and the net flow recorded in the
transaction log. -/
theorem applyOp_cash_log (s : String) (o : Op) (db : DbState) (a : Account)
    (ha : getAccount db s = some a) :
    ∃ a', getAccount (applyOp s o db).2 s = some a' ∧
      a'.cash + buyCost (applyOp s o db).2.transactions
          - sellProceeds (applyOp s o db).2.transactions
        = a.cash + buyCost db.transactions - sellProceeds db.transactions := by
  obtain ⟨side, trade, p, name, txId, ts⟩ := o
  obtain ⟨sym, q⟩ := trade
  cases side with
  | buy =>
    simp only [applyOp]
    by_cases hcash : a.cash < p * q
    · rw [buy_stock_reject s sym name txId ts db a p q ha hcash]
      exact ⟨a, ha, rfl⟩
    · by_cases hq0 :
        ((get_holding db s sym).getD Holding.defaultHolding).quantity > 0
      · obtain ⟨h0, hh⟩ : ∃ h0, get_holding db s sym = some h0 := by
          cases hfind : get_holding db s sym with
          | none => rw [hfind] at hq0; simp [Holding.defaultHolding] at hq0
          | some h0 => exact ⟨h0, rfl⟩
        rw [hh] at hq0
        simp only [Option.getD_some] at hq0
        rw [buy_stock_commit_merge s sym name txId ts db a h0 p q ha hcash
          hh hq0]
        refine ⟨{ a with value := a.value, cash := a.cash - p * q }, ?_, ?_⟩
        · simp only [getAccount_add_transaction, getAccount_update_holding]
          exact getAccount_update_account db s a.value (a.cash - p * q) a ha
        · simp only [transactions_add_transaction, transactions_update_holding,
            transactions_update_account]
          rw [buyCost_append_buy _ _ rfl, sellProceeds_append_buy _ _ rfl]
          ring
      · rw [buy_stock_commit_insert s sym name txId ts db a p q ha hcash hq0]
        refine ⟨{ a with value := a.value, cash := a.cash - p * q }, ?_, ?_⟩
        · simp only [getAccount_add_transaction, getAccount_add_holding]
          exact getAccount_update_account db s a.value (a.cash - p * q) a ha
        · simp only [transactions_add_transaction, transactions_add_holding,
            transactions_update_account]
          rw [buyCost_append_buy _ _ rfl, sellProceeds_append_buy _ _ rfl]
          ring
  | sell =>
    simp only [applyOp]
    cases hh : get_holding db s sym with
    | none =>
      rw [sell_stock_no_holding s sym txId ts db a p q ha hh]
      exact ⟨a, ha, rfl⟩
    | some h0 =>
      by_cases hlt : h0.quantity < q
      · rw [sell_stock_reject s sym txId ts db a h0 p q ha hh hlt]
        exact ⟨a, ha, rfl⟩
      · by_cases hzero : h0.quantity - q = 0
        · rw [sell_stock_commit_delete s sym txId ts db a h0 p q ha hh hlt
            hzero]
          refine ⟨{ a with value := a.value, cash := a.cash + p * q }, ?_, ?_⟩
          · simp only [getAccount_add_transaction, getAccount_delete_holding]
            exact getAccount_update_account db s a.value (a.cash + p * q) a ha
          · simp only [transactions_add_transaction,
              transactions_delete_holding, transactions_update_account]
            rw [buyCost_append_sell _ _ rfl, sellProceeds_append_sell _ _ rfl]
            ring
        · rw [sell_stock_commit_update s sym txId ts db a h0 p q ha hh hlt
            hzero]
          refine ⟨{ a with value := a.value, cash := a.cash + p * q }, ?_, ?_⟩
          · simp only [getAccount_add_transaction, getAccount_update_holding]
            exact getAccount_update_account db s a.value (a.cash + p * q) a ha
          · simp only [transactions_add_transaction,
              transactions_update_holding, transactions_update_account]
            rw [buyCost_append_sell _ _ rfl, sellProceeds_append_sell _ _ rfl]
            ring

theorem runOps_cons (s : String) (o : Op) (ops : List Op) (db : DbState) :
    runOps s (o :: ops) db = runOps s ops (applyOp s o db).2 := by
  simp [runOps, List.foldl]

/-- Any finite sequence of handler invocations preserves the difference
between the account's cash and the net flow recorded in the log. -/
theorem runOps_cash_log (s : String) (ops : List Op) :
    ∀ (db : DbState) (a : Account), getAccount db s = some a →
      ∃ a', getAccount (runOps s ops db) s = some a' ∧
        a'.cash + buyCost (runOps s ops db).transactions
            - sellProceeds (runOps s ops db).transactions
          = a.cash + buyCost db.transactions - sellProceeds db.transactions := by
  induction ops with
  | nil => intro db a ha; exact ⟨a, ha, rfl⟩
  | cons o rest ih =>
    intro db a ha
    obtain ⟨a1, ha1, heq1⟩ := applyOp_cash_log s o db a ha
    obtain ⟨a2, ha2, heq2⟩ := ih (applyOp s o db).2 a1 ha1
    refine ⟨a2, ?_, ?_⟩
    · rw [runOps_cons]; exact ha2
    · rw [runOps_cons]; omega

/-! Claim theorems. -/

/-- C2, counterexample to the claim as stated: starting from a fresh account
with 100000 cents, a single committed buy of 10 shares at 5000 cents leaves
`cash + Σ(quantity × averageCost)` at 100000, while
`startingCash − Σ(buy cost) + Σ(sell proceeds)` computed from the transaction
log is 50000. -/
theorem c2_ledger_log_equation_fails :
    ((getAccount (runOps "u" [⟨.buy, ⟨"AAPL", 10⟩, 5000, "Apple", "t1", "ts"⟩]
          ⟨[⟨"u", 0, 100000, 0⟩], [], []⟩) "u").map Account.cash).getD 0
        + holdingsBookValue
            (runOps "u" [⟨.buy, ⟨"AAPL", 10⟩, 5000, "Apple", "t1", "ts"⟩]
              ⟨[⟨"u", 0, 100000, 0⟩], [], []⟩) "u"
      ≠ 100000
        - buyCost (runOps "u" [⟨.buy, ⟨"AAPL", 10⟩, 5000, "Apple", "t1", "ts"⟩]
            ⟨[⟨"u", 0, 100000, 0⟩], [], []⟩).transactions
        + sellProceeds
            (runOps "u" [⟨.buy, ⟨"AAPL", 10⟩, 5000, "Apple", "t1", "ts"⟩]
              ⟨[⟨"u", 0, 100000, 0⟩], [], []⟩).transactions := by
  decide

/-- C2 (amended): for every finite sequence of buy/sell operations on one
account starting from a fresh account, the account's cash alone equals
startingCash minus the total cost of all BUY transactions plus the total
proceeds of all SELL transactions, as computed from the transaction log. -/
theorem c2_cash_equals_log (s : String) (v0 c0 ch0 : Int) (ops : List Op) :
    ∃ a, getAccount (runOps s ops ⟨[⟨s, v0, c0, ch0⟩], [], []⟩) s = some a ∧
      a.cash = c0
        - buyCost (runOps s ops ⟨[⟨s, v0, c0, ch0⟩], [], []⟩).transactions
        + sellProceeds
            (runOps s ops ⟨[⟨s, v0, c0, ch0⟩], [], []⟩).transactions := by
  have hstart : getAccount (⟨[⟨s, v0, c0, ch0⟩], [], []⟩ : DbState) s =
      some ⟨s, v0, c0, ch0⟩ := by
    simp [getAccount, accountKey, List.find?]
  obtain ⟨a, ha, heq⟩ := runOps_cash_log s ops ⟨[⟨s, v0, c0, ch0⟩], [], []⟩
    ⟨s, v0, c0, ch0⟩ hstart
  refine ⟨a, ha, ?_⟩
  have hb : buyCost (⟨[⟨s, v0, c0, ch0⟩], [], []⟩ : DbState).transactions = 0 :=
    rfl
  have hs : sellProceeds
      (⟨[⟨s, v0, c0, ch0⟩], [], []⟩ : DbState).transactions = 0 := rfl
  have hc : (⟨s, v0, c0, ch0⟩ : Account).cash = c0 := rfl
  rw [hb, hs, hc] at heq
  omega

/-- C3: a committed buy of quantity `q > 0` at unit price `p ≥ 0` cents, with
sufficient cash, decreases cash by `p * q`; if no holding row exists for the
symbol, a holding with quantity `q` and average cost `p` is created; if a
holding with positive quantity `q0` and average cost `a0 ≥ 0` exists, it
becomes quantity `q0 + q` with average cost `floor((a0*q0 + p*q)/(q0 + q))`
(the code's truncating division agrees with floor division on these
nonnegative operands). -/
theorem c3_buy_updates_cash_and_holding (s sym name txId ts : String)
    (db : DbState) (a : Account) (p q : Int)
    (ha : getAccount db s = some a) (hfunds : p * q ≤ a.cash)
    (hq : 0 < q) (hp : 0 ≤ p) :
    (get_holding db s sym = none →
      (buy_stock s ⟨sym, q⟩ p name txId ts DbFails.allOk db).1 =
          .committed ⟨txId, s, sym, "BUY", q, p, ts⟩ ∧
      getAccount (buy_stock s ⟨sym, q⟩ p name txId ts DbFails.allOk db).2 s =
          some { a with cash := a.cash - p * q } ∧
      get_holding (buy_stock s ⟨sym, q⟩ p name txId ts DbFails.allOk db).2
          s sym = some ⟨s, sym, name, q, p, p * q, p⟩) ∧
    (∀ h0 : Holding, get_holding db s sym = some h0 → 0 < h0.quantity →
      0 ≤ h0.purchase_price →
      (buy_stock s ⟨sym, q⟩ p name txId ts DbFails.allOk db).1 =
          .committed ⟨txId, s, sym, "BUY", q, p, ts⟩ ∧
      getAccount (buy_stock s ⟨sym, q⟩ p name txId ts DbFails.allOk db).2 s =
          some { a with cash := a.cash - p * q } ∧
      get_holding (buy_stock s ⟨sym, q⟩ p name txId ts DbFails.allOk db).2
          s sym =
        some { h0 with
                quantity := h0.quantity + q
                purchase_price :=
                  Int.fdiv (h0.purchase_price * h0.quantity + p * q)
                    (h0.quantity + q) }) := by
  have hncash : ¬ a.cash < p * q := not_lt.mpr hfunds
  constructor
  · intro hnone
    have hq0 : ¬ ((get_holding db s sym).getD Holding.defaultHolding).quantity
        > 0 := by
      rw [hnone]; simp [Holding.defaultHolding]
    rw [buy_stock_commit_insert s sym name txId ts db a p q ha hncash hq0]
    refine ⟨rfl, ?_, ?_⟩
    · simp only [getAccount_add_transaction, getAccount_add_holding]
      exact getAccount_update_account db s a.value (a.cash - p * q) a ha
    · simp only [get_holding_add_transaction]
      have := get_holding_add_holding
        (update_account db s a.value (a.cash - p * q))
        ⟨s, sym, name, q, p, p * q, p⟩ (by simpa using hnone)
      simpa using this
  · intro h0 hh hq0 hpp
    rw [buy_stock_commit_merge s sym name txId ts db a h0 p q ha hncash hh hq0]
    refine ⟨rfl, ?_, ?_⟩
    · simp only [getAccount_add_transaction, getAccount_update_holding]
      exact getAccount_update_account db s a.value (a.cash - p * q) a ha
    · simp only [get_holding_add_transaction]
      have hupd := get_holding_update_holding
        (update_account db s a.value (a.cash - p * q)) s sym
        (h0.quantity + q)
        (Int.tdiv (h0.purchase_price * h0.quantity + p * q) (h0.quantity + q))
        h0 (by simpa using hh)
      rw [hupd]
      have hnum : 0 ≤ h0.purchase_price * h0.quantity + p * q :=
        add_nonneg (mul_nonneg hpp (le_of_lt hq0)) (mul_nonneg hp (le_of_lt hq))
      have hden : 0 ≤ h0.quantity + q := by omega
      rw [Int.fdiv_eq_tdiv hnum hden]

/-- C3 witness: both branches of `c3_buy_updates_cash_and_holding` at
concrete inputs — a first buy of 3 shares at 5 cents from 1000 cents cash,
and a merge buy of 1 share at 5 cents into a holding of 2 shares at average
cost 3 (floor((3*2 + 5*1)/3) = 3). -/
theorem c3_buy_updates_cash_and_holding_witness :
    ((buy_stock "u" ⟨"AAPL", 3⟩ 5 "Apple" "t1" "ts" DbFails.allOk
        ⟨[⟨"u", 0, 1000, 0⟩], [], []⟩).1 =
      .committed ⟨"t1", "u", "AAPL", "BUY", 3, 5, "ts"⟩) ∧
    (getAccount (buy_stock "u" ⟨"AAPL", 3⟩ 5 "Apple" "t1" "ts" DbFails.allOk
        ⟨[⟨"u", 0, 1000, 0⟩], [], []⟩).2 "u" = some ⟨"u", 0, 985, 0⟩) ∧
    (get_holding (buy_stock "u" ⟨"AAPL", 3⟩ 5 "Apple" "t1" "ts" DbFails.allOk
        ⟨[⟨"u", 0, 1000, 0⟩], [], []⟩).2 "u" "AAPL" =
      some ⟨"u", "AAPL", "Apple", 3, 5, 15, 5⟩) ∧
    (get_holding (buy_stock "u" ⟨"AAPL", 1⟩ 5 "Apple" "t2" "ts" DbFails.allOk
        ⟨[⟨"u", 0, 1000, 0⟩], [⟨"u", "AAPL", "Apple", 2, 3, 6, 3⟩], []⟩).2
      "u" "AAPL" = some ⟨"u", "AAPL", "Apple", 3, 3, 6, 3⟩) := by
  obtain ⟨hA, -⟩ := c3_buy_updates_cash_and_holding "u" "AAPL" "Apple" "t1"
    "ts" ⟨[⟨"u", 0, 1000, 0⟩], [], []⟩ ⟨"u", 0, 1000, 0⟩ 5 3 (by decide)
    (by decide) (by decide) (by decide)
  obtain ⟨h1, h2, h3⟩ := hA rfl
  obtain ⟨-, hB⟩ := c3_buy_updates_cash_and_holding "u" "AAPL" "Apple" "t2"
    "ts" ⟨[⟨"u", 0, 1000, 0⟩], [⟨"u", "AAPL", "Apple", 2, 3, 6, 3⟩], []⟩
    ⟨"u", 0, 1000, 0⟩ 5 1 (by decide) (by decide) (by decide) (by decide)
  obtain ⟨-, -, g3⟩ := hB ⟨"u", "AAPL", "Apple", 2, 3, 6, 3⟩ rfl (by decide)
    (by decide)
  refine ⟨h1, ?_, h3, ?_⟩
  · rw [h2]; decide
  · rw [g3]; decide

/-- C4: a committed sell of `q` shares at `p` cents against a holding of
`q0 ≥ q` shares increases cash by `p * q`; when `q0 - q = 0` the holding row
is deleted, otherwise the quantity becomes `q0 - q` and the average cost is
left unchanged. -/
theorem c4_sell_updates_cash_and_holding (s sym txId ts : String)
    (db : DbState) (a : Account) (h0 : Holding) (p q : Int)
    (ha : getAccount db s = some a) (hh : get_holding db s sym = some h0)
    (hq : q ≤ h0.quantity)
    (huniq : db.holdings.countP (holdingKey s sym) ≤ 1) :
    (sell_stock s ⟨sym, q⟩ p txId ts DbFails.allOk db).1 =
        .committed ⟨txId, s, sym, "SELL", q, p, ts⟩ ∧
    getAccount (sell_stock s ⟨sym, q⟩ p txId ts DbFails.allOk db).2 s =
        some { a with cash := a.cash + p * q } ∧
    (h0.quantity - q = 0 →
      get_holding (sell_stock s ⟨sym, q⟩ p txId ts DbFails.allOk db).2 s sym =
        none) ∧
    (h0.quantity - q ≠ 0 →
      get_holding (sell_stock s ⟨sym, q⟩ p txId ts DbFails.allOk db).2 s sym =
        some { h0 with quantity := h0.quantity - q }) := by
  have hge : ¬ h0.quantity < q := not_lt.mpr hq
  by_cases hzero : h0.quantity - q = 0
  · rw [sell_stock_commit_delete s sym txId ts db a h0 p q ha hh hge hzero]
    refine ⟨rfl, ?_, fun _ => ?_, fun hnz => absurd hzero hnz⟩
    · simp only [getAccount_add_transaction, getAccount_delete_holding]
      exact getAccount_update_account db s a.value (a.cash + p * q) a ha
    · simp only [get_holding_add_transaction]
      exact get_holding_delete_holding
        (update_account db s a.value (a.cash + p * q)) s sym huniq
  · rw [sell_stock_commit_update s sym txId ts db a h0 p q ha hh hge hzero]
    refine ⟨rfl, ?_, fun hz => absurd hz hzero, fun _ => ?_⟩
    · simp only [getAccount_add_transaction, getAccount_update_holding]
      exact getAccount_update_account db s a.value (a.cash + p * q) a ha
    · simp only [get_holding_add_transaction]
      exact get_holding_update_holding
        (update_account db s a.value (a.cash + p * q)) s sym
        (h0.quantity - q) h0.purchase_price h0 (by simpa using hh)

/-- C4 witness: both branches of `c4_sell_updates_cash_and_holding` at
concrete inputs — selling all 10 shares at 6000 cents deletes the row and
moves cash from 50000 to 110000 (the worked example of the spec), and selling
2 of 5 shares leaves 3 shares at the old average cost 100. -/
theorem c4_sell_updates_cash_and_holding_witness :
    ((sell_stock "u" ⟨"AAPL", 10⟩ 6000 "t1" "ts" DbFails.allOk
        ⟨[⟨"u", 0, 50000, 0⟩], [⟨"u", "AAPL", "Apple", 10, 5000, 50000, 5000⟩],
          []⟩).1 = .committed ⟨"t1", "u", "AAPL", "SELL", 10, 6000, "ts"⟩) ∧
    (getAccount (sell_stock "u" ⟨"AAPL", 10⟩ 6000 "t1" "ts" DbFails.allOk
        ⟨[⟨"u", 0, 50000, 0⟩], [⟨"u", "AAPL", "Apple", 10, 5000, 50000, 5000⟩],
          []⟩).2 "u" = some ⟨"u", 0, 110000, 0⟩) ∧
    (get_holding (sell_stock "u" ⟨"AAPL", 10⟩ 6000 "t1" "ts" DbFails.allOk
        ⟨[⟨"u", 0, 50000, 0⟩], [⟨"u", "AAPL", "Apple", 10, 5000, 50000, 5000⟩],
          []⟩).2 "u" "AAPL" = none) ∧
    (get_holding (sell_stock "u" ⟨"AAPL", 2⟩ 150 "t2" "ts" DbFails.allOk
        ⟨[⟨"u", 0, 1000, 0⟩], [⟨"u", "AAPL", "Apple", 5, 100, 500, 100⟩],
          []⟩).2 "u" "AAPL" = some ⟨"u", "AAPL", "Apple", 3, 100, 500, 100⟩) := by
  obtain ⟨h1, h2, h3, -⟩ := c4_sell_updates_cash_and_holding "u" "AAPL" "t1"
    "ts" ⟨[⟨"u", 0, 50000, 0⟩],
      [⟨"u", "AAPL", "Apple", 10, 5000, 50000, 5000⟩], []⟩
    ⟨"u", 0, 50000, 0⟩ ⟨"u", "AAPL", "Apple", 10, 5000, 50000, 5000⟩ 6000 10
    (by decide) (by decide) (by decide) (by decide)
  obtain ⟨-, -, -, g4⟩ := c4_sell_updates_cash_and_holding "u" "AAPL" "t2"
    "ts" ⟨[⟨"u", 0, 1000, 0⟩], [⟨"u", "AAPL", "Apple", 5, 100, 500, 100⟩], []⟩
    ⟨"u", 0, 1000, 0⟩ ⟨"u", "AAPL", "Apple", 5, 100, 500, 100⟩ 150 2
    (by decide) (by decide) (by decide) (by decide)
  refine ⟨h1, ?_, h3 (by decide), ?_⟩
  · rw [h2]; decide
  · rw [g4 (by decide)]; decide

/-- C6: a buy whose total cost `p * q` exceeds the account's cash is rejected
with the insufficient-cash response and the database state (cash, holdings
and transaction log) is returned unchanged. -/
theorem c6_insufficient_funds_rejection (s sym name txId ts : String)
    (db : DbState) (a : Account) (p q : Int)
    (ha : getAccount db s = some a) (hcost : a.cash < p * q) :
    buy_stock s ⟨sym, q⟩ p name txId ts DbFails.allOk db =
      (.rejected .insufficientCash, db) :=
  buy_stock_reject s sym name txId ts db a p q ha hcost

/-- C6 witness: the worked example of the spec — 100000 cents of cash, a buy
of 10 shares at 15000 cents (cost 150000) is rejected and the state is
untouched. -/
theorem c6_insufficient_funds_rejection_witness :
    buy_stock "u" ⟨"AAPL", 10⟩ 15000 "Apple" "t1" "ts" DbFails.allOk
        ⟨[⟨"u", 0, 100000, 0⟩], [], []⟩ =
      (.rejected .insufficientCash, ⟨[⟨"u", 0, 100000, 0⟩], [], []⟩) :=
  c6_insufficient_funds_rejection "u" "AAPL" "Apple" "t1" "ts"
    ⟨[⟨"u", 0, 100000, 0⟩], [], []⟩ ⟨"u", 0, 100000, 0⟩ 15000 10 (by decide)
    (by decide)

/-- C1: the three ledger mutations are not atomic.  Because none of the
`db.rs` collection operations attach the client session, the cash write of
`buy_stock` takes effect immediately and the `abort_transaction` on the
rejection path does not undo it.  With an account of 10000 cents and an
existing holding of 5 shares, a buy of 5 shares at 200 cents whose holding
update fails at the driver is rejected, yet the returned state has cash
already reduced to 9000 with the holding and transaction log untouched — a
rejected order that changed ledger state. -/
theorem c1_rejected_buy_changes_state :
    buy_stock "u" ⟨"AAPL", 5⟩ 200 "Apple" "t1" "ts"
        ⟨false, false, false, true, false, false, false⟩
        ⟨[⟨"u", 0, 10000, 0⟩], [⟨"u", "AAPL", "Apple", 5, 100, 500, 100⟩],
          []⟩ =
      (.rejected .tradeError,
        ⟨[⟨"u", 0, 9000, 0⟩], [⟨"u", "AAPL", "Apple", 5, 100, 500, 100⟩],
          []⟩) ∧
    (⟨[⟨"u", 0, 9000, 0⟩], [⟨"u", "AAPL", "Apple", 5, 100, 500, 100⟩],
        []⟩ : DbState) ≠
      ⟨[⟨"u", 0, 10000, 0⟩], [⟨"u", "AAPL", "Apple", 5, 100, 500, 100⟩],
        []⟩ := by
  decide

/-- C5: a sell on a symbol with no holding row does not produce the
insufficient-shares rejection — the handler hits `.unwrap()` on the `None`
returned by `get_holding` and panics (the ledger state is left unchanged,
but no rejection reaches the caller).  A sell of more shares than held is
rejected with the insufficient-shares response and no state change. -/
theorem c5_sell_without_position_panics :
    sell_stock "u" ⟨"AAPL", 1⟩ 100 "t1" "ts" DbFails.allOk
        ⟨[⟨"u", 0, 1000, 0⟩], [], []⟩ =
      (.panicked, ⟨[⟨"u", 0, 1000, 0⟩], [], []⟩) ∧
    sell_stock "u" ⟨"AAPL", 5⟩ 100 "t2" "ts" DbFails.allOk
        ⟨[⟨"u", 0, 1000, 0⟩], [⟨"u", "AAPL", "Apple", 3, 100, 300, 100⟩],
          []⟩ =
      (.rejected .insufficientShares,
        ⟨[⟨"u", 0, 1000, 0⟩], [⟨"u", "AAPL", "Apple", 3, 100, 300, 100⟩],
          []⟩) := by
  decide

/-- C7: cash does not stay nonnegative.  Neither handler validates the
requested quantity, so a sell of quantity -5 at 100 cents against a holding
of 1 share passes the `current_quantity < quantity` check, commits, and
moves cash from 100 (nonnegative) to -400. -/
theorem c7_negative_quantity_sell_drives_cash_negative :
    (0 : Int) ≤ 100 ∧
    (sell_stock "u" ⟨"AAPL", -5⟩ 100 "t1" "ts" DbFails.allOk
        ⟨[⟨"u", 0, 100, 0⟩], [⟨"u", "AAPL", "Apple", 1, 100, 100, 100⟩],
          []⟩).1 =
      .committed ⟨"t1", "u", "AAPL", "SELL", -5, 100, "ts"⟩ ∧
    getAccount (sell_stock "u" ⟨"AAPL", -5⟩ 100 "t1" "ts" DbFails.allOk
        ⟨[⟨"u", 0, 100, 0⟩], [⟨"u", "AAPL", "Apple", 1, 100, 100, 100⟩],
          []⟩).2 "u" = some ⟨"u", 0, -400, 0⟩ ∧
    (-400 : Int) < 0 := by
  decide

/-- C10: neither handler validates that the requested quantity is positive.
A buy of quantity 0 passes the funds check (total cost 0), commits, records
a transaction with quantity 0 and inserts a holding row with quantity 0; a
sell of quantity 0 against a holding of 3 shares likewise commits. -/
theorem c10_zero_quantity_trades_commit :
    buy_stock "u" ⟨"AAPL", 0⟩ 500 "Apple" "t1" "ts" DbFails.allOk
        ⟨[⟨"u", 0, 1000, 0⟩], [], []⟩ =
      (.committed ⟨"t1", "u", "AAPL", "BUY", 0, 500, "ts"⟩,
        ⟨[⟨"u", 0, 1000, 0⟩], [⟨"u", "AAPL", "Apple", 0, 500, 0, 500⟩],
          [⟨"t1", "u", "AAPL", "BUY", 0, 500, "ts"⟩]⟩) ∧
    (sell_stock "u" ⟨"AAPL", 0⟩ 200 "t2" "ts" DbFails.allOk
        ⟨[⟨"u", 0, 1000, 0⟩], [⟨"u", "AAPL", "Apple", 3, 100, 300, 100⟩],
          []⟩).1 =
      .committed ⟨"t2", "u", "AAPL", "SELL", 0, 200, "ts"⟩ := by
  decide

/-- C8: a cached quote younger than 300 seconds (resp. a cached profile
younger than 24 hours) is returned as-is with no upstream call and no cache
change; on a cache miss or an expired entry, an upstream request is issued. -/
theorem c8_cache_ttl_behavior (sym : String) (now tq tp : Nat)
    (q : FinnhubQuote) (pr : FinnhubProfile) (uq : FetchRes FinnhubQuote)
    (up : FetchRes FinnhubProfile) (qc : QuoteCache) (pc : ProfileCache) :
    (cacheGet qc sym = some (q, tq) → now - tq < 300 →
      fetch_stock_price sym now uq qc = ⟨.ok q, qc, false⟩) ∧
    (cacheFresh qc sym now 300 = none →
      (fetch_stock_price sym now uq qc).networkCall = true) ∧
    (cacheGet pc sym = some (pr, tp) → now - tp < 60 * 60 * 24 →
      fetch_stock_profile sym now up pc = ⟨.ok pr, pc, false⟩) ∧
    (cacheFresh pc sym now (60 * 60 * 24) = none →
      (fetch_stock_profile sym now up pc).networkCall = true) := by
  refine ⟨fun hget hlt => ?_, fun hmiss => ?_, fun hget hlt => ?_,
    fun hmiss => ?_⟩
  · simp [fetch_stock_price, cacheFresh, hget, hlt]
  · simp only [fetch_stock_price, hmiss]
    cases uq with
    | error e => rfl
    | ok quote =>
      by_cases hc : quote.c ≤ 0
      · simp [hc]
      · simp [hc]
  · simp [fetch_stock_profile, cacheFresh, hget, hlt]
  · simp only [fetch_stock_profile, hmiss]
    cases up with
    | error e => rfl
    | ok profile => rfl

/-- C8 witness: with a quote cached at instant 50 and a profile cached at
instant 50, a request at instant 100 is served from both caches with no
network call, and a request at instant 90000 (past both TTLs) issues an
upstream request for both. -/
theorem c8_cache_ttl_behavior_witness :
    (fetch_stock_price "AAPL" 100 (.error "upstream down")
        [("AAPL", ⟨10, 1, 1, 9⟩, 50)] =
      ⟨.ok ⟨10, 1, 1, 9⟩, [("AAPL", ⟨10, 1, 1, 9⟩, 50)], false⟩) ∧
    ((fetch_stock_price "AAPL" 90000 (.ok ⟨10, 1, 1, 9⟩)
        [("AAPL", ⟨10, 1, 1, 9⟩, 50)]).networkCall = true) ∧
    (fetch_stock_profile "AAPL" 100 (.error "upstream down")
        [("AAPL", ⟨"Apple", "logo", "tech"⟩, 50)] =
      ⟨.ok ⟨"Apple", "logo", "tech"⟩, [("AAPL", ⟨"Apple", "logo", "tech"⟩, 50)],
        false⟩) ∧
    ((fetch_stock_profile "AAPL" 90000 (.ok ⟨"Apple", "logo", "tech"⟩)
        [("AAPL", ⟨"Apple", "logo", "tech"⟩, 50)]).networkCall = true) := by
  have T1 := c8_cache_ttl_behavior "AAPL" 100 50 50 ⟨10, 1, 1, 9⟩
    ⟨"Apple", "logo", "tech"⟩ (.error "upstream down") (.error "upstream down")
    [("AAPL", ⟨10, 1, 1, 9⟩, 50)] [("AAPL", ⟨"Apple", "logo", "tech"⟩, 50)]
  have T2 := c8_cache_ttl_behavior "AAPL" 90000 50 50 ⟨10, 1, 1, 9⟩
    ⟨"Apple", "logo", "tech"⟩ (.ok ⟨10, 1, 1, 9⟩)
    (.ok ⟨"Apple", "logo", "tech"⟩)
    [("AAPL", ⟨10, 1, 1, 9⟩, 50)] [("AAPL", ⟨"Apple", "logo", "tech"⟩, 50)]
  exact ⟨T1.1 (by decide) (by decide), T2.2.1 (by decide),
    T1.2.2.1 (by decide) (by decide), T2.2.2.2 (by decide)⟩

/-- C9: when the upstream quote has a non-positive current price, the fetch
surfaces the invalid-price error and the cache map is returned exactly as it
was (no entry is written or overwritten). -/
theorem c9_nonpositive_price_not_cached (sym : String) (now : Nat)
    (q : FinnhubQuote) (qc : QuoteCache)
    (hmiss : cacheFresh qc sym now 300 = none) (hc : q.c ≤ 0) :
    fetch_stock_price sym now (.ok q) qc =
      ⟨.error "Invalid stock price returned", qc, true⟩ := by
  simp [fetch_stock_price, hmiss, hc]

/-- C9 witness: an expired entry for the symbol is in the cache; the upstream
response has current price -5; the call returns the invalid-price error and
the stale entry is still the only cache content. -/
theorem c9_nonpositive_price_not_cached_witness :
    fetch_stock_price "AAPL" 400 (.ok ⟨-5, 1, 1, 9⟩)
        [("AAPL", ⟨10, 1, 1, 9⟩, 50)] =
      ⟨.error "Invalid stock price returned", [("AAPL", ⟨10, 1, 1, 9⟩, 50)],
        true⟩ :=
  c9_nonpositive_price_not_cached "AAPL" 400 ⟨-5, 1, 1, 9⟩
    [("AAPL", ⟨10, 1, 1, 9⟩, 50)] (by decide) (by decide)

end StockSim
